import Mathlib

/-!
Verification of the pocket-chemist-nmr spectral-processing library.

The Python sources under `src/src/pocketchemist_nmr` are embedded shallowly:

* floats are modelled as rationals (`ℚ`), with Python's `round` (banker's
  rounding) and `int` (truncation toward zero) made explicit;
* torch tensors are modelled as a shape (list of dimension sizes) together
  with the flat row-major data list (`PTensor`);
* fallible Python code (KeyError, AssertionError, ...) returns
  `Except PyErr`;
* the NMRPipe header dict is an ordered association list from field names
  to values (`MetaDict`), a value being a float, a string or Python `None`.

Each claim's theorem sits at the end of the file, after the definitions.
-/

/-! ## Python numeric primitives -/

/-- Python's `round(x)` on a float: round half to even (banker's rounding). -/
def pyRound (q : ℚ) : ℤ :=
  let f : ℤ := ⌊q⌋
  let r : ℚ := q - f
  if r < 1/2 then f
  else if 1/2 < r then f + 1
  else if f % 2 = 0 then f else f + 1

/-- Python's `int(x)` on a float: truncation toward zero. -/
def pyInt (q : ℚ) : ℤ := if 0 ≤ q then ⌊q⌋ else ⌈q⌉

/-- Python's `round(x, 1)`: round to one decimal place (used by the header
code lookups to absorb float storage noise). -/
def roundTo1 (q : ℚ) : ℚ := (pyRound (q * 10) : ℚ) / 10

/-- The Python exception kinds raised by the embedded code paths. -/
inductive PyErr where
  | keyError
  | typeError
  | valueError
  | attributeError
  | assertionError
  | notImplementedError
  | runtimeError
  | indexError
  | zeroDivisionError
  deriving DecidableEq, Repr

deriving instance DecidableEq for Except

/-! ## Enumerations (`spectra/constants.py` and `spectra/nmrpipe/constants.py`)

`UnitType` deliberately has **no** `FREQ` member, exactly as in
`spectra/constants.py` (its members are UNKNOWN, POINTS, PERCENT, HZ, PPM,
SEC); `NMRSpectrum.convert` nevertheless mentions `UnitType.FREQ`, which in
Python raises `AttributeError` when evaluated. -/

inductive UnitType where
  | UNKNOWN
  | POINTS
  | PERCENT
  | HZ
  | PPM
  | SEC
  deriving DecidableEq, Repr

inductive DomainType where
  | UNKNOWN
  | TIME
  | FREQ
  deriving DecidableEq, Repr

inductive DataType where
  | UNKNOWN
  | REAL
  | IMAG
  | COMPLEX
  deriving DecidableEq, Repr

inductive DataLayout where
  | CONTIGUOUS
  | SINGLE_INTERLEAVE
  | BLOCK_INTERLEAVE
  deriving DecidableEq, Repr

inductive ApodizationType where
  | NONE
  | SINEBELL
  | EXPONENTIAL
  deriving DecidableEq, Repr

inductive SignAdjustment where
  | NONE
  | REAL
  | COMPLEX
  | NEGATE_IMAG
  | REAL_NEGATE_IMAG
  | COMPLEX_NEGATE_IMAG
  deriving DecidableEq, Repr

inductive Plane2DPhase where
  | NONE
  | MAGNITUDE
  | TPPI
  | STATES
  | IMAGE
  | ARRAY
  deriving DecidableEq, Repr

/-! ## Metadata containers (`spectra/nmrpipe/meta.py`, `spectra/meta.py`)

A header value is a parsed float, a decoded text field, or Python `None`
(the sentinel stored by the reverse code lookup for the NONE members). -/

inductive PVal where
  | num (q : ℚ)
  | str (s : String)
  | null
  deriving DecidableEq, Repr

/-- An ordered string-keyed mapping, as a Python dict of header values. -/
abbrev MetaDict := List (String × PVal)

/-- Dict lookup: `m[k]` as an `Option`. -/
def metaGet (m : MetaDict) (k : String) : Option PVal :=
  match m with
  | [] => none
  | e :: rest => if e.1 = k then some e.2 else metaGet rest k

/-- Dict update `m[k] = v`: replaces in place when the key exists (Python
dicts keep the original insertion position), appends otherwise. -/
def metaSet (m : MetaDict) (k : String) (v : PVal) : MetaDict :=
  match m with
  | [] => [(k, v)]
  | e :: rest => if e.1 = k then (k, v) :: rest else e :: metaSet rest k v

/-- `m.get(k, d)` restricted to numeric values: yields the stored float, or
the default when the key is absent.  (A non-numeric stored value would make
Python's `round` raise `TypeError`; the fields read through this helper are
numeric in every header.) -/
def metaGetQD (m : MetaDict) (k : String) (d : ℚ) : ℚ :=
  match metaGet m k with
  | some (.num q) => q
  | _ => d

/-- `m[k]` for a numeric field: `KeyError` when absent, `TypeError` when the
stored value is not a float. -/
def metaNum (m : MetaDict) (k : String) : Except PyErr ℚ :=
  match metaGet m k with
  | some (.num q) => .ok q
  | some _ => .error .typeError
  | none => .error .keyError

theorem metaGet_set_self (m : MetaDict) (k : String) (v : PVal) :
    metaGet (metaSet m k v) k = some v := by
  induction m with
  | nil => simp [metaGet, metaSet]
  | cons e rest ih =>
    by_cases h : e.1 = k
    · simp [metaGet, metaSet, h]
    · simp [metaGet, metaSet, h, ih]

theorem metaGet_set_ne (m : MetaDict) (k k' : String) (v : PVal)
    (h : k ≠ k') : metaGet (metaSet m k v) k' = metaGet m k' := by
  induction m with
  | nil => simp [metaGet, metaSet, h]
  | cons e rest ih =>
    by_cases he : e.1 = k
    · simp [metaGet, metaSet, he, h]
    · simp only [metaSet, if_neg he]
      by_cases he' : e.1 = k'
      · simp [metaGet, he']
      · simp [metaGet, he', ih]

/-! ## Tensors

A torch tensor is modelled as its shape together with the flat row-major
data list.  All the embedded operations act on the last (innermost) axis,
which in the flat list is a run of `lastDim` consecutive elements. -/

/-- Complex scalar: a (real, imaginary) pair of rationals. -/
abbrev Cplx := ℚ × ℚ

structure PTensor (α : Type) where
  shape : List ℕ
  data : List α
  deriving DecidableEq, Repr

/-- `t.size()[-1]`, the length of the last axis. -/
def lastDim (s : List ℕ) : ℕ := s.getLastD 0

/-- Replace the last entry of a shape. -/
def setLast (s : List ℕ) (v : ℕ) : List ℕ := s.dropLast ++ [v]

/-- Fuel-driven worker for `chunks` (structural recursion, so that concrete
instances reduce inside the kernel; the fuel is the list length, which
bounds the number of chunks). -/
def chunksAux (n : ℕ) : ℕ → List α → List (List α)
  | _, [] => []
  | 0, _ :: _ => []
  | fuel + 1, a :: l => (a :: l).take n :: chunksAux n fuel ((a :: l).drop n)

/-- Partition a list into consecutive chunks of `n` elements (the rows of
the last axis when `n` is the last dimension). -/
def chunks (n : ℕ) (l : List α) : List (List α) :=
  if n = 0 then [] else chunksAux n l.length l

theorem chunksAux_fuel (n : ℕ) (hn : 0 < n) (fuel : ℕ) :
    ∀ l : List α, l.length ≤ fuel →
      chunksAux n fuel l = chunksAux n l.length l := by
  induction fuel using Nat.strong_induction_on with
  | _ fuel ih =>
    intro l hl
    match fuel, l with
    | _, [] => simp [chunksAux]
    | 0, a :: l => simp at hl
    | fuel + 1, a :: l =>
      simp only [chunksAux, List.length_cons]
      have hdl : ((a :: l).drop n).length ≤ fuel := by
        simp only [List.length_drop, List.length_cons]
        simp only [List.length_cons] at hl
        omega
      have hdl2 : ((a :: l).drop n).length ≤ l.length := by
        simp only [List.length_drop, List.length_cons]
        omega
      rw [ih fuel (by omega) _ hdl]
      rw [ih l.length (by simp only [List.length_cons] at hl; omega) _ hdl2]

theorem chunks_nil (n : ℕ) : chunks n ([] : List α) = [] := by
  by_cases h : n = 0 <;> simp [chunks, chunksAux, h]

theorem chunks_cons (n : ℕ) (hn : 0 < n) (a : α) (l : List α) :
    chunks n (a :: l) = (a :: l).take n :: chunks n ((a :: l).drop n) := by
  have hne : n ≠ 0 := Nat.pos_iff_ne_zero.mp hn
  simp only [chunks, if_neg hne, List.length_cons, chunksAux]
  congr 1
  have h1 : ((a :: l).drop n).length ≤ l.length := by
    simp only [List.length_drop, List.length_cons]
    omega
  exact chunksAux_fuel n hn l.length _ h1

theorem chunks_of_ne_nil (n : ℕ) (hn : 0 < n) (l : List α) (hl : l ≠ []) :
    chunks n l = l.take n :: chunks n (l.drop n) := by
  match l with
  | [] => exact absurd rfl hl
  | a :: l => exact chunks_cons n hn a l

/-- A full-length first chunk splits off exactly. -/
theorem chunks_append (n : ℕ) (hn : 0 < n) (r l : List α)
    (hr : r.length = n) : chunks n (r ++ l) = r :: chunks n l := by
  have hne : r ++ l ≠ [] := by
    intro h
    rcases List.append_eq_nil.mp h with ⟨h1, _⟩
    rw [h1] at hr
    simp at hr
    omega
  rw [chunks_of_ne_nil n hn _ hne]
  rw [← hr, List.take_left, List.drop_left]

/-- Chunking undoes a flatten of equal-length rows. -/
theorem chunks_flatten (n : ℕ) (hn : 0 < n) (L : List (List α))
    (h : ∀ r ∈ L, r.length = n) : chunks n L.flatten = L := by
  induction L with
  | nil => simp [chunks_nil]
  | cons r L ih =>
    rw [List.flatten_cons, chunks_append n hn r L.flatten (h r (by simp))]
    rw [ih (fun r hr => h r (by simp [hr]))]

/-- Flattening undoes chunking. -/
theorem flatten_chunks (n : ℕ) (hn : 0 < n) :
    ∀ l : List α, (chunks n l).flatten = l
  | [] => by simp [chunks_nil]
  | a :: l => by
    rw [chunks_cons n hn a l, List.flatten_cons,
      flatten_chunks n hn ((a :: l).drop n)]
    exact List.take_append_drop n (a :: l)
  termination_by l => l.length
  decreasing_by
    simp only [List.length_drop, List.length_cons]
    omega

/-- Every chunk of a list whose length is a multiple of `n` has length `n`. -/
theorem length_mem_chunks (n : ℕ) (hn : 0 < n) :
    ∀ l : List α, n ∣ l.length → ∀ r ∈ chunks n l, r.length = n
  | [] => by simp [chunks_nil]
  | a :: l => by
    intro hd r hr
    rw [chunks_cons n hn a l] at hr
    rcases hd with ⟨k, hk⟩
    have hk1 : 1 ≤ k := by
      by_contra hc
      push_neg at hc
      interval_cases k
      simp_all
    simp only [List.length_cons] at hk
    have hnk : n ≤ n * k := Nat.le_mul_of_pos_right n hk1
    have hle : n ≤ l.length + 1 := by omega
    rcases List.mem_cons.mp hr with h | h
    · subst h
      simp only [List.length_take, List.length_cons]
      omega
    · refine length_mem_chunks n hn ((a :: l).drop n) ⟨k - 1, ?_⟩ r h
      simp only [List.length_drop, List.length_cons]
      rw [Nat.mul_sub_left_distrib, Nat.mul_one, ← hk]
  termination_by l => l.length
  decreasing_by
    simp only [List.length_drop, List.length_cons]
    omega

theorem lastDim_setLast (s : List ℕ) (v : ℕ) : lastDim (setLast s v) = v := by
  simp [lastDim, setLast, List.getLastD_concat]

theorem setLast_setLast (s : List ℕ) (v w : ℕ) :
    setLast (setLast s v) w = setLast s w := by
  simp [setLast, List.dropLast_concat]

theorem setLast_lastDim (s : List ℕ) (hs : s ≠ []) :
    setLast s (lastDim s) = s := by
  have h1 : lastDim s = s.getLast hs := by
    simp [lastDim, List.getLastD_eq_getLast?, List.getLast?_eq_getLast s hs]
  rw [setLast, h1, List.dropLast_append_getLast]

theorem prod_eq_dropLast_mul_lastDim (s : List ℕ) (hs : s ≠ []) :
    s.prod = s.dropLast.prod * lastDim s := by
  conv_lhs => rw [← setLast_lastDim s hs]
  simp [setLast]

/-! ## Tensor layout utilities (`spectra/utils.py`)

The four interleave conversions act on the last axis only.  `torch.split`
with chunk size `n/2` on an even-length last axis yields the two halves of
each last-axis row; `tensor[..., ::2]` / `tensor[..., 1::2]` yield the
even- and odd-indexed elements of each row; `torch.complex` pairs two real
tensors elementwise.  `torch.hstack` concatenates along axis 0 for 1-D
tensors and along axis **1** for every higher rank. -/

/-- Elementwise pairing of the even/odd elements of a row
(`torch.complex(tensor[..., ::2], tensor[..., 1::2])` on one row). -/
def pairUp : List ℚ → List Cplx
  | a :: b :: t => (a, b) :: pairUp t
  | _ => []

/-- Inverse of `pairUp`: lay out (re, im) pairs sequentially. -/
def unpair : List Cplx → List ℚ
  | [] => []
  | p :: t => p.1 :: p.2 :: unpair t

/-- `split_block_to_complex`: halve the last axis, pairing the first half
of each row (real) with its second half (imaginary).  The source requires
an even last-axis length (via `int(size[-1] / 2)` and `torch.split`);
this embedding is its behaviour in that case. -/
def split_block_to_complex (t : PTensor ℚ) : PTensor Cplx :=
  let n := lastDim t.shape
  let m := n / 2
  ⟨setLast t.shape m,
   ((chunks n t.data).map (fun r => (r.take m).zip (r.drop m))).flatten⟩

/-- `split_single_to_complex`: pair even-indexed (real) with odd-indexed
(imaginary) elements of each last-axis row. -/
def split_single_to_complex (t : PTensor ℚ) : PTensor Cplx :=
  let n := lastDim t.shape
  ⟨setLast t.shape (n / 2), ((chunks n t.data).map pairUp).flatten⟩

/-- `torch.hstack((a, b))`: concatenation along axis 0 for 1-D tensors,
along axis 1 otherwise. -/
def hstack (a b : PTensor ℚ) : PTensor ℚ :=
  match a, b with
  | ⟨d0 :: d1 :: rest, da⟩, ⟨_ :: e1 :: er, db⟩ =>
      ⟨d0 :: (d1 + e1) :: rest,
       (List.zipWith (· ++ ·)
         (chunks ((d1 :: rest).prod) da)
         (chunks ((e1 :: er).prod) db)).flatten⟩
  | ⟨_, da⟩, ⟨_, db⟩ => ⟨[da.length + db.length], da ++ db⟩

/-- `combine_block_from_complex`: `torch.hstack((t.real, t.imag))`. -/
def combine_block_from_complex (t : PTensor Cplx) : PTensor ℚ :=
  hstack ⟨t.shape, t.data.map Prod.fst⟩ ⟨t.shape, t.data.map Prod.snd⟩

/-- `combine_single_from_complex`: stack real/imag along a new innermost
axis and view with the last axis doubled, i.e. interleave each row. -/
def combine_single_from_complex (t : PTensor Cplx) : PTensor ℚ :=
  let n := lastDim t.shape
  ⟨setLast t.shape (2 * n), ((chunks n t.data).map unpair).flatten⟩

theorem pairUp_length : ∀ r : List ℚ, (pairUp r).length = r.length / 2
  | [] => by simp [pairUp]
  | [_] => by simp [pairUp]
  | _ :: _ :: t => by
    simp only [pairUp, List.length_cons, pairUp_length t]
    omega

theorem unpair_pairUp : ∀ r : List ℚ, r.length % 2 = 0 → unpair (pairUp r) = r
  | [] => fun _ => rfl
  | [_] => by intro h; simp at h
  | a :: b :: t => by
    intro h
    simp only [List.length_cons] at h
    simp only [pairUp, unpair]
    rw [unpair_pairUp t (by omega)]

/-- General inverse law for the single-interleave pair: splitting an
even-last-axis real tensor to complex and recombining restores it exactly,
in every rank. -/
theorem single_roundtrip (t : PTensor ℚ)
    (wf : t.data.length = t.shape.prod) (hs : t.shape ≠ [])
    (hev : lastDim t.shape % 2 = 0) :
    combine_single_from_complex (split_single_to_complex t) = t := by
  obtain ⟨s, d⟩ := t
  simp only at wf hs hev
  by_cases hn0 : lastDim s = 0
  · have hd : d = [] := by
      have : d.length = 0 := by
        rw [wf, prod_eq_dropLast_mul_lastDim s hs, hn0, Nat.mul_zero]
      exact List.length_eq_zero.mp this
    subst hd
    simp only [split_single_to_complex, combine_single_from_complex,
      chunks_nil, List.map_nil, List.flatten_nil, hn0, Nat.zero_div,
      lastDim_setLast, setLast_setLast, Nat.mul_zero]
    rw [← hn0, setLast_lastDim s hs]
  · have hn : 0 < lastDim s := Nat.pos_of_ne_zero hn0
    set n := lastDim s with hndef
    have hn2 : 2 ≤ n := by omega
    have hm : 0 < n / 2 := by omega
    have hdvd : n ∣ d.length := by
      refine ⟨s.dropLast.prod, ?_⟩
      rw [wf, prod_eq_dropLast_mul_lastDim s hs, Nat.mul_comm, hndef]
    have hrows : ∀ r ∈ chunks n d, r.length = n :=
      length_mem_chunks n hn d hdvd
    simp only [split_single_to_complex, combine_single_from_complex, ← hndef,
      lastDim_setLast, setLast_setLast]
    have h1 : chunks (n / 2) ((chunks n d).map pairUp).flatten
        = (chunks n d).map pairUp := by
      refine chunks_flatten (n / 2) hm _ ?_
      intro r hr
      rcases List.mem_map.mp hr with ⟨r0, hr0, hre⟩
      rw [← hre, pairUp_length, hrows r0 hr0]
    rw [h1, List.map_map]
    have h2 : (chunks n d).map (unpair ∘ pairUp) = chunks n d := by
      refine List.map_congr_left ?_ |>.trans (List.map_id _)
      intro r hr
      exact unpair_pairUp r (by rw [hrows r hr]; exact hev)
    rw [h2, flatten_chunks n hn d]
    have h3 : 2 * (n / 2) = n := by omega
    rw [h3, setLast_lastDim s hs]

/-! ## Code/enum lookup tables

`find_mapping` is imported by `nmrpipe_spectrum.py` from
`spectra/nmrpipe/constants.py` but its definition is not present in the
sources; the tables below embed it. -/

/-- Modelled from the spec: `find_mapping` is missing from the sources (only
its callers exist).  Per the spec, the code/enum lookups round floating
header codes to one decimal place before comparison and fall back to a
NONE/UNKNOWN sentinel for unrecognized codes; the in-source docstring gives
`FDFxFTFLAG`: frequency domain = 1.0, time domain = 0.0. -/
def mapDomainType (q : ℚ) : DomainType :=
  if roundTo1 q = 0 then .TIME
  else if roundTo1 q = 1 then .FREQ
  else .UNKNOWN

/-- Modelled from the spec: reverse direction of the `domain_type` table
(`find_mapping('domain_type', value, reverse=True)`). -/
def domainTypeCode : DomainType → PVal
  | .TIME => .num 0
  | .FREQ => .num 1
  | .UNKNOWN => .null

/-- Modelled from the spec: `QUADFLAG` codes, from `fileio.py` (0.0 ⇒
complex, 1.0 ⇒ real) plus the IMAG member of `DataType`. -/
def mapDataType (q : ℚ) : DataType :=
  if roundTo1 q = 0 then .COMPLEX
  else if roundTo1 q = 1 then .REAL
  else if roundTo1 q = 2 then .IMAG
  else .UNKNOWN

/-- Modelled from the spec: `AQSIGN` codes, the numeric values of the
`SignAdjustment` enum in `spectra/nmrpipe/constants.py`, NONE being the
no-value sentinel. -/
def mapSignAdjustment (q : ℚ) : SignAdjustment :=
  if roundTo1 q = 1 then .REAL
  else if roundTo1 q = 2 then .COMPLEX
  else if roundTo1 q = 16 then .NEGATE_IMAG
  else if roundTo1 q = 17 then .REAL_NEGATE_IMAG
  else if roundTo1 q = 18 then .COMPLEX_NEGATE_IMAG
  else .NONE

/-- Modelled from the spec: reverse direction of the `sign_adjustment`
table; `SignAdjustment.NONE`'s stored value is Python `None`. -/
def signAdjustmentCode : SignAdjustment → PVal
  | .NONE => .null
  | .REAL => .num 1
  | .COMPLEX => .num 2
  | .NEGATE_IMAG => .num 16
  | .REAL_NEGATE_IMAG => .num 17
  | .COMPLEX_NEGATE_IMAG => .num 18

/-- Modelled from the spec: `FD2DPHASE` codes, the numeric values of the
`Plane2DPhase` enum in `spectra/nmrpipe/constants.py`. -/
def mapPlane2DPhase (q : ℚ) : Plane2DPhase :=
  if roundTo1 q = 0 then .MAGNITUDE
  else if roundTo1 q = 1 then .TPPI
  else if roundTo1 q = 2 then .STATES
  else if roundTo1 q = 3 then .IMAGE
  else if roundTo1 q = 4 then .ARRAY
  else .NONE

/-! ## `NMRPipeSpectrum` header-derived properties
(`spectra/nmrpipe/nmrpipe_spectrum.py`) -/

/-- `xs[-1]` on a Python list: `IndexError` when empty. -/
def listLast : List α → Except PyErr α
  | [] => .error .indexError
  | [a] => .ok a
  | _ :: a :: l => listLast (a :: l)

/-- `xs[i]` with a non-negative index: `IndexError` out of range. -/
def listGet (l : List α) (i : ℕ) : Except PyErr α :=
  match l.get? i with
  | some a => .ok a
  | none => .error .indexError

/-- An `NMRPipeSpectrum`: the header dict plus the tensor shape (the tensor
values themselves are irrelevant to the header-derived properties). -/
structure PipeSpectrum where
  meta : MetaDict
  dataShape : List ℕ

/-- `ndims`: `int(meta['FDDIMCOUNT'])` when present, else the tensor rank. -/
def PipeSpectrum.ndims (S : PipeSpectrum) : ℕ :=
  match metaGet S.meta "FDDIMCOUNT" with
  | some (.num q) => (pyInt q).toNat
  | _ => S.dataShape.length

/-- `order`: `[int(meta[f'FDDIMORDER{dim}']) for dim in range(1, 5)]`,
truncated to `ndims` entries and reversed. -/
def PipeSpectrum.order (S : PipeSpectrum) : Except PyErr (List ℤ) := do
  let raw ← [1, 2, 3, 4].mapM
    (fun i => do pure (pyInt (← metaNum S.meta ("FDDIMORDER" ++ toString i))))
  pure ((raw.take S.ndims).reverse)

/-- `domain_type`: per channel in `order`, `FDF{dim}FTFLAG` through the
`domain_type` lookup. -/
def PipeSpectrum.domainType (S : PipeSpectrum) :
    Except PyErr (List DomainType) := do
  let ord ← S.order
  ord.mapM (fun dim => do
    pure (mapDomainType (← metaNum S.meta ("FDF" ++ toString dim ++ "FTFLAG"))))

/-- `data_type`: per channel in `order`, `FDF{dim}QUADFLAG` through the
`data_type` lookup. -/
def PipeSpectrum.dataType (S : PipeSpectrum) :
    Except PyErr (List DataType) := do
  let ord ← S.order
  ord.mapM (fun dim => do
    pure (mapDataType (← metaNum S.meta ("FDF" ++ toString dim ++ "QUADFLAG"))))

/-- `sign_adjustment`: per channel in `order`, `FDF{dim}AQSIGN` through the
`sign_adjustment` lookup. -/
def PipeSpectrum.signAdjustment (S : PipeSpectrum) :
    Except PyErr (List SignAdjustment) := do
  let ord ← S.order
  ord.mapM (fun dim => do
    pure (mapSignAdjustment
      (← metaNum S.meta ("FDF" ++ toString dim ++ "AQSIGN"))))

/-- `plane2dphase`: `FD2DPHASE` through the `plane2dphase` lookup. -/
def PipeSpectrum.plane2dphase (S : PipeSpectrum) :
    Except PyErr Plane2DPhase := do
  pure (mapPlane2DPhase (← metaNum S.meta "FD2DPHASE"))

/-- `correct_digital_filter`:
`dmxflag = round(meta.get('FDDMXFLAG', -1.0))`, then
`False if dmxflag == -1.0 or dmxflag == 1.0 else True`. -/
def PipeSpectrum.correct_digital_filter (S : PipeSpectrum) : Bool :=
  let dmxflag := pyRound (metaGetQD S.meta "FDDMXFLAG" (-1))
  if dmxflag = -1 ∨ dmxflag = 1 then false else true

/-- `data_layout(dim, data_type)`: the source first replaces the argument by
`self.data_type[dim]` whenever the argument **is not** None (and keeps the
argument, i.e. None, otherwise) — the condition
`data_type = self.data_type[dim] if data_type is not None else data_type`
as written — then maps REAL/IMAG to CONTIGUOUS, COMPLEX on the last axis to
BLOCK_INTERLEAVE, COMPLEX elsewhere to SINGLE_INTERLEAVE, anything else to
`NotImplementedError`. -/
def PipeSpectrum.data_layout (S : PipeSpectrum) (dim : ℕ)
    (dt : Option DataType) : Except PyErr DataLayout := do
  let dt ← if dt.isSome then do
      pure (some (← listGet (← S.dataType) dim))
    else pure dt
  if dt = some .REAL ∨ dt = some .IMAG then
    pure .CONTIGUOUS
  else if dim = S.ndims - 1 ∧ dt = some .COMPLEX then
    pure .BLOCK_INTERLEAVE
  else if dt = some .COMPLEX then
    pure .SINGLE_INTERLEAVE
  else
    throw .notImplementedError

/-- The concrete (real, inv, alt, neg) flags `NMRPipeSpectrum.ft` hands to
the base engine. -/
structure FtFlags where
  real : Bool
  inv : Bool
  alt : Bool
  neg : Bool
  deriving DecidableEq, Repr

/-- `NMRPipeSpectrum.ft`: resolves `auto` into concrete flags from the last
axis's domain type (FREQ ⇒ all false; otherwise inv=True with real from
`plane2dphase`, alt/neg from `sign_adjustment`), calls the base transform
with `auto=False` (the base transform only mutates the data tensor, which
the header-derived result does not observe), then writes the acting
channel's `AQSIGN` (reverse-mapped `SignAdjustment.NONE`) and `FTFLAG`
(reverse-mapped `TIME if inv else FREQ`).  `bruk` is forwarded to the base
engine unchanged and never consulted by this subclass method.  Returns the
resolved flags and the updated header. -/
def PipeSpectrum.ft (S : PipeSpectrum) (auto : Bool)
    (real inv alt neg : Bool) (bruk : Bool := false) :
    Except PyErr (FtFlags × MetaDict) := do
  let _ := bruk
  let flags ←
    if auto then do
      let dt ← listLast (← S.domainType)
      if dt = DomainType.FREQ then
        pure ⟨false, false, false, false⟩
      else do
        let p2d ← S.plane2dphase
        let sa ← listLast (← S.signAdjustment)
        pure ⟨p2d = Plane2DPhase.MAGNITUDE ∨ p2d = Plane2DPhase.TPPI,
              true,
              sa = SignAdjustment.REAL ∨ sa = SignAdjustment.COMPLEX,
              sa = SignAdjustment.NEGATE_IMAG ∨
                sa = SignAdjustment.REAL_NEGATE_IMAG ∨
                sa = SignAdjustment.COMPLEX_NEGATE_IMAG⟩
    else
      pure (⟨real, inv, alt, neg⟩ : FtFlags)
  let last_dim ← listLast (← S.order)
  let m1 := metaSet S.meta ("FDF" ++ toString last_dim ++ "AQSIGN")
    (signAdjustmentCode SignAdjustment.NONE)
  let newDomain := if flags.inv then DomainType.TIME else DomainType.FREQ
  let m2 := metaSet m1 ("FDF" ++ toString last_dim ++ "FTFLAG")
    (domainTypeCode newDomain)
  pure (flags, m2)

/-! ## `NMRSpectrum.convert` (`spectra/nmr_spectrum.py`)

The base engine reads the abstract per-axis properties (`domain_type[-1]`,
`npts[-1]`, `sw_hz[-1]`, `range_hz[-1]`, `range_ppm[-1]`, `group_delay`,
`correct_digital_filter`); they are gathered here into one record for the
acting axis.  Note the source's domain check for a TIME axis compares
`unit_from is UnitType.FREQ`: `UnitType` (see above) has no `FREQ` member,
so evaluating that attribute raises `AttributeError` before anything else
in the TIME branch.  The FREQ branch's `raise ValueError(msg.format(...))`
is no better: `msg` uses the named placeholders `{unit}`/`{domain_type}`
but `format` is given positional arguments, so the format call raises
`KeyError: 'unit'` before the `ValueError` is even constructed. -/

structure ConvAxis where
  domain : DomainType
  npts : ℕ
  sw_hz : ℚ
  range_hz : ℚ × ℚ
  range_ppm : ℚ × ℚ
  group_delay : ℚ
  cdf : Bool

/-- `NMRSpectrum.convert(value, unit_from, unit_to, correct_digital_filter)`. -/
def convert (a : ConvAxis) (value : ℚ) (unit_from unit_to : UnitType)
    (correct_digital_filter : Bool := true) : Except PyErr ℚ := do
  -- unit/domain compatibility validation; `msg.format(domain_type, unit)`
  -- feeds positional arguments to named placeholders, raising `KeyError`
  if a.domain = DomainType.FREQ then
    if unit_from = UnitType.SEC then throw .keyError
    else if unit_to = UnitType.SEC then throw .keyError
    else pure ()
  else if a.domain = DomainType.TIME then
    -- `unit_from is UnitType.FREQ`: no such member exists
    throw .attributeError
  else pure ()
  -- parameters used in the calculations
  let npts : ℚ := a.npts
  if npts = 0 then throw .zeroDivisionError
  let dw_s := a.sw_hz / npts
  let sw_hz := |a.range_hz.1 - a.range_hz.2|
  let df_hz := sw_hz / npts
  let sw_ppm := |a.range_ppm.1 - a.range_ppm.2|
  let df_ppm := sw_ppm / npts
  -- the point number for the value
  let point ←
    if unit_from = UnitType.POINTS then
      pure (if value > 0 then value else npts + value)
    else if unit_from = UnitType.SEC then do
      if dw_s = 0 then throw .zeroDivisionError
      let p := value / dw_s
      if correct_digital_filter ∧ a.cdf then
        pure (p - (⌊a.group_delay⌋ : ℚ))
      else pure p
    else if unit_from = UnitType.HZ then do
      if df_hz = 0 then throw .zeroDivisionError
      pure ((value - a.range_hz.1) / df_hz)
    else if unit_from = UnitType.PPM then do
      if df_ppm = 0 then throw .zeroDivisionError
      pure ((value - a.range_ppm.1) / df_ppm)
    else throw .notImplementedError
  -- `assert 0.0 < point < float(npts)`
  if ¬(0 < point ∧ point < npts) then throw .assertionError
  -- the value of the point number
  if unit_to = UnitType.POINTS then pure (pyRound point : ℚ)
  else if unit_to = UnitType.SEC then pure (point * dw_s)
  else if unit_to = UnitType.HZ then pure (point * df_hz)
  else if unit_to = UnitType.PPM then pure (point * df_ppm)
  else throw .notImplementedError

/-! ## Apodization (`spectra/nmr_spectrum.py`)

`gen_range` is imported from `spectra/utils.py` but absent from the
sources; the default TIME range is embedded from the spec.  The
transcendental torch functions (`exp`, `sin`, `**`) and π have no exact
rational counterpart, so they are passed in as function arguments — the
claims settled below do not depend on their values. -/

/-- Modelled from the spec: `gen_range` with `RangeType.TIME` (the class
default `time_range_type`) generates a time series over `[0, t_max[` with
`npts` points whose spacing is the dwell `1/sw`; no `GROUP_DELAY` flag is
set, so the group-delay argument does not shift it. -/
def genRangeTime (npts : ℕ) (sw : ℚ) : List ℚ :=
  (List.range npts).map (fun i => (i : ℚ) / sw)

/-- Modelled from the spec: `gen_range` with `RangeType.UNIT` generates the
unit series `[0, 1[` with `npts` points spaced `1/npts`. -/
def genRangeUnit (npts : ℕ) : List ℚ :=
  (List.range npts).map (fun i => (i : ℚ) / npts)

/-- Slice assignment `k[start : start + size] = v`: the slice is clamped to
the list's bounds and the right-hand side must have exactly the slice's
length, else torch raises a shape-mismatch `RuntimeError`. -/
def setSlice (l : List ℚ) (start size : ℕ) (v : List ℚ) :
    Except PyErr (List ℚ) :=
  let lo := min start l.length
  let hi := min (start + size) l.length
  if v.length = hi - lo then
    .ok (l.take lo ++ v ++ l.drop hi)
  else
    .error .runtimeError

/-- `NMRSpectrum.apodization_exp(lb, first_point_scale, start, size)` on a
1-D tensor: resolves `size` (`npts` when None), computes
`scaled_sw = sw*(size-start)/npts`, then re-binds
`size = npts if size is None else npts` (the second branch also yields
`npts`), builds `k = ones(npts)`, overwrites `k[start:start+size]` with
`|lb*pi*t|` for the generated range `t`, and multiplies the data by
`exp(-k)`.  `expf` stands for `x ↦ exp(x)` and `piq` for π. -/
def apodization_exp (expf : ℚ → ℚ) (piq : ℚ) (sw : ℚ) (data : List ℚ)
    (lb : ℚ) (start : ℕ) (size : Option ℕ) : Except PyErr (List ℚ) := do
  let npts := data.length
  let size1 := size.getD npts
  let scaled_sw := sw * ((size1 : ℚ) - (start : ℚ)) / (npts : ℚ)
  let size2 := npts     -- `size = npts if size is None else npts`
  let t := genRangeTime size2 scaled_sw
  let k ← setSlice (List.replicate npts 1) start size2
    (t.map (fun x => |lb * piq * x|))
  pure (List.zipWith (fun d ki => d * expf (-ki)) data k)

/-- `NMRSpectrum.apodization_sine(off, end, power, ...)` on a 1-D tensor:
the same structure with the sine-bell window
`sin(off*pi + (end*pi - off*pi) * x) ** power`; `sinf`/`powf` stand for
torch `sin` and `**`. -/
def apodization_sine (sinf : ℚ → ℚ) (powf : ℚ → ℚ → ℚ) (piq : ℚ)
    (sw : ℚ) (data : List ℚ) (off ed power : ℚ) (start : ℕ)
    (size : Option ℕ) : Except PyErr (List ℚ) := do
  let npts := data.length
  let size1 := size.getD npts
  let _scaled_sw := sw * ((size1 : ℚ) - (start : ℚ)) / (npts : ℚ)
  let size2 := npts     -- `size = npts if size is None else npts`
  let offp := off * piq
  let edp := ed * piq
  let t := genRangeUnit size2
  let k ← setSlice (List.replicate npts 1) start size2
    (t.map (fun x => powf (sinf (offp + (edp - offp) * x)) power))
  pure (List.zipWith (fun d ki => d * ki) data k)

/-! ## `NMRSpectrum.zerofill` (`spectra/nmr_spectrum.py`)

The data is viewed as its list of last-axis rows.  `ceil(log2 npts)` is
`Nat.clog 2 npts`; `2**e` with the float exponent
`ceil(log2(npts)) + double_base2 - 1` is the rational `zpow`. -/

/-- The resolved zero-fill target size: priority `size`, then `pad`
(`npts + pad`), then `double_base2` (`2^(ceil(log2 npts) + double_base2 - 1)`),
then the default `npts * 2 * double`. -/
def zerofillTarget (npts : ℕ) (double : ℤ) (double_base2 : Option ℤ)
    (size : Option ℤ) (pad : Option ℤ) : ℚ :=
  match size with
  | some s => (s : ℚ)
  | none =>
    match pad with
    | some p => (npts : ℚ) + (p : ℚ)
    | none =>
      match double_base2 with
      | some b => (2 : ℚ) ^ ((Nat.clog 2 npts : ℤ) + b - 1)
      | none => (npts : ℚ) * 2 * (double : ℚ)

/-- `NMRSpectrum.zerofill(double, double_base2, size, pad)`: resolves the
target, computes `delta = int(size - npts)`, asserts `delta > 0`, and
right-pads every last-axis row with `delta` zeros. -/
def zerofill (rows : List (List ℚ)) (double : ℤ) (double_base2 : Option ℤ)
    (size : Option ℤ) (pad : Option ℤ) : Except PyErr (List (List ℚ)) :=
  let npts := (rows.headD []).length
  let target := zerofillTarget npts double double_base2 size pad
  let delta := pyInt (target - (npts : ℚ))
  if delta > 0 then
    .ok (rows.map (fun r => r ++ List.replicate delta.toNat 0))
  else
    .error .assertionError

/-! ## Header parsing (`spectra/nmrpipe/meta.py`, `load_nmrpipe_meta`)

The 2048-byte buffer is abstracted by its two views used in the source:
`floats` is the `struct.iter_unpack('f', buff)` sequence (any four bytes
unpack to a float, so this pass cannot fail), and `decodeAt offset size` is
the composite `struct.unpack_from(f'{size}s', buff, offset)` +
`.decode().strip(chr(0))`, whose `None` outcome stands for the
`UnicodeDecodeError` / `struct.error` that the source catches.  The field
catalog (`field_locations`, `text_fields`) is passed in as data. -/

structure HdrBuf where
  floats : List ℚ
  decodeAt : ℕ → ℕ → Option String

/-- Offset-to-name lookup `{v: k for k, v in field_locations.items()}`;
with duplicate offsets the later item wins, hence the reverse. -/
def fieldAtLoc (locs : List (String × ℕ)) (i : ℕ) : Option String :=
  (locs.reverse.find? (fun e => e.2 = i)).map (fun e => e.1)

/-- The float pass: every 4-byte position with a catalogued name becomes a
numeric entry. -/
def floatPass (locs : List (String × ℕ)) (B : HdrBuf) : MetaDict :=
  B.floats.enum.foldl
    (fun d iv =>
      match fieldAtLoc locs iv.1 with
      | some name => metaSet d name (.num iv.2)
      | none => d)
    []

/-- Python `str.replace`: scan left to right, substituting every
non-overlapping occurrence of the (non-empty) pattern.  The fuel is the
list length, which bounds the number of steps. -/
def replaceAux (pat rep : List Char) : ℕ → List Char → List Char
  | _, [] => []
  | 0, l => l
  | fuel + 1, a :: l =>
    if pat ≠ [] ∧ pat.isPrefixOf (a :: l) then
      rep ++ replaceAux pat rep fuel ((a :: l).drop pat.length)
    else
      a :: replaceAux pat rep fuel l

/-- The `FD<NAME>` key of a `text_fields` entry:
`'FD' + label.replace('SIZE_', '')`. -/
def textKey (label : String) : String :=
  "FD" ++ String.mk (replaceAux "SIZE_".data [] label.data.length label.data)

/-- One iteration of the text-field loop: skip unknown keys, re-read
`size` bytes at `field_locations[key] * 4`, overwrite the entry on
success, swallow the failure (leaving the dict untouched) otherwise. -/
def textStep (locs : List (String × ℕ)) (B : HdrBuf) (d : MetaDict)
    (e : String × ℕ) : MetaDict :=
  match locs.find? (fun x => x.1 = textKey e.1) with
  | none => d
  | some x =>
    match B.decodeAt (x.2 * 4) e.2 with
    | some s => metaSet d (textKey e.1) (.str s)
    | none => d

/-- `load_nmrpipe_meta`: the float pass followed by the text-field loop. -/
def load_nmrpipe_meta (locs : List (String × ℕ))
    (text_fields : List (String × ℕ)) (B : HdrBuf) : MetaDict :=
  text_fields.foldl (textStep locs B) (floatPass locs B)

/-- A text field is kept exactly when its key is catalogued and its bytes
decode. -/
def textOk (locs : List (String × ℕ)) (B : HdrBuf) (e : String × ℕ) : Bool :=
  match locs.find? (fun x => x.1 = textKey e.1) with
  | none => false
  | some x => (B.decodeAt (x.2 * 4) e.2).isSome

/-! ## `NMRSpectrum.transpose` (`spectra/nmr_spectrum.py`)

`torch.transpose` on the shape/flat-list representation: the two axes are
swapped in the shape and every element is fetched from the source position
with the same two index components swapped. -/

/-- The multi-index of flat position `k` in shape `s` (row-major). -/
def multiIdx : List ℕ → ℕ → List ℕ
  | [], _ => []
  | _ :: rest, k => (k / rest.prod) :: multiIdx rest (k % rest.prod)

/-- The flat position of multi-index `idx` in shape `s` (row-major). -/
def flatIdx : List ℕ → List ℕ → ℕ
  | _ :: rest, i :: is => i * rest.prod + flatIdx rest is
  | _, _ => 0

/-- Swap entries `i` and `j` of a list (used for both shapes and
multi-indices). -/
def swapIdx (l : List ℕ) (i j : ℕ) : List ℕ :=
  (l.set i (l.getD j 0)).set j (l.getD i 0)

/-- `torch.transpose(t, dim0, dim1)`. -/
def torchTranspose (dflt : α) (t : PTensor α) (dim0 dim1 : ℕ) : PTensor α :=
  let s' := swapIdx t.shape dim0 dim1
  ⟨s', (List.range s'.prod).map
    (fun k => t.data.getD (flatIdx t.shape (swapIdx (multiIdx s' k) dim0 dim1)) dflt)⟩

/-- The data tensor of a spectrum: real-valued or packed native complex. -/
inductive TData where
  | real (t : PTensor ℚ)
  | cplx (t : PTensor Cplx)
  deriving DecidableEq, Repr

/-- `.real`/`.imag` packing of a complex tensor (`combine_*_from_complex`);
on a real tensor torch's `.imag` raises. -/
def packWith (f : PTensor Cplx → PTensor ℚ) : TData → Except PyErr TData
  | .cplx t => .ok (.real (f t))
  | .real _ => .error .runtimeError

/-- Unpacking an interleaved real tensor to native complex
(`split_*_to_complex`); `torch.complex` on complex inputs raises. -/
def unpackWith (f : PTensor ℚ → PTensor Cplx) : TData → Except PyErr TData
  | .real t => .ok (.cplx (f t))
  | .cplx _ => .error .runtimeError

/-- `torch.transpose` on either payload. -/
def transposeTData (d : TData) (dim0 dim1 : ℕ) : TData :=
  match d with
  | .real t => .real (torchTranspose 0 t dim0 dim1)
  | .cplx t => .cplx (torchTranspose (0, 0) t dim0 dim1)

/-- `NMRSpectrum.transpose(dim0, dim1, update_data_layout)` acting on the
data tensor.  `layoutFn` stands for the abstract `self.data_layout`
(supplied by the format subclass), `dataType` for the abstract per-axis
`self.data_type`, and `ndims` for `self.ndims`.  The source first asserts
`ndims > 1`, then sorts the two axes (`dim0, dim1 = min(...), max(...)`),
packs a native-complex last axis into the interleaved layout the target
position requires, swaps the axes, and unpacks the new last axis when the
axis arriving there is complex-typed. -/
def nmr_transpose (layoutFn : ℕ → DataType → DataLayout)
    (dataType : List DataType) (ndims : ℕ) (d : TData)
    (dim0 dim1 : ℕ) (update_data_layout : Bool := true) :
    Except PyErr TData := do
  if ¬ndims > 1 then throw .assertionError
  let d0 := min dim0 dim1
  let d1 := max dim0 dim1
  let d ←
    if update_data_layout ∧ d1 = ndims - 1 ∧
        dataType.getD d1 .UNKNOWN = DataType.COMPLEX then
      match layoutFn d0 DataType.COMPLEX with
      | .BLOCK_INTERLEAVE => packWith combine_block_from_complex d
      | .SINGLE_INTERLEAVE => packWith combine_single_from_complex d
      | .CONTIGUOUS => throw .notImplementedError
    else pure d
  let d := transposeTData d d0 d1
  if update_data_layout ∧ d1 = ndims - 1 ∧
      dataType.getD d0 .UNKNOWN = DataType.COMPLEX then
    match layoutFn d0 DataType.COMPLEX with
    | .BLOCK_INTERLEAVE => unpackWith split_block_to_complex d
    | .SINGLE_INTERLEAVE => unpackWith split_single_to_complex d
    | .CONTIGUOUS => throw .notImplementedError
  else pure d

theorem textStep_of_not_ok (locs : List (String × ℕ)) (B : HdrBuf)
    (d : MetaDict) (e : String × ℕ) (h : textOk locs B e = false) :
    textStep locs B d e = d := by
  unfold textStep
  unfold textOk at h
  split
  · rfl
  next x hf =>
    rw [hf] at h
    cases hd : B.decodeAt (x.2 * 4) e.2 with
    | none => rfl
    | some s => simp [hd] at h

theorem metaGet_textStep_ne (locs : List (String × ℕ)) (B : HdrBuf)
    (d : MetaDict) (e : String × ℕ) (k : String) (h : textKey e.1 ≠ k) :
    metaGet (textStep locs B d e) k = metaGet d k := by
  unfold textStep
  split
  · rfl
  next x hf =>
    split
    · next s hd => exact metaGet_set_ne d (textKey e.1) k (.str s) h
    · rfl

theorem foldl_textStep_filter (locs : List (String × ℕ)) (B : HdrBuf) :
    ∀ (tf : List (String × ℕ)) (d : MetaDict),
      tf.foldl (textStep locs B) d
        = (tf.filter (textOk locs B)).foldl (textStep locs B) d
  | [], _ => rfl
  | e :: tf, d => by
    by_cases h : textOk locs B e = true
    · simp only [List.foldl_cons, List.filter_cons, h, if_true]
      exact foldl_textStep_filter locs B tf (textStep locs B d e)
    · have hf : textOk locs B e = false := by simpa using h
      simp only [List.foldl_cons, List.filter_cons, hf]
      rw [textStep_of_not_ok locs B d e hf]
      exact foldl_textStep_filter locs B tf d

theorem metaGet_foldl_textStep (locs : List (String × ℕ)) (B : HdrBuf)
    (k : String) : ∀ (tf : List (String × ℕ)) (d : MetaDict),
      (∀ e ∈ tf, textKey e.1 = k → textOk locs B e = false) →
      metaGet (tf.foldl (textStep locs B) d) k = metaGet d k
  | [], _, _ => rfl
  | e :: tf, d, h => by
    simp only [List.foldl_cons]
    rw [metaGet_foldl_textStep locs B k tf (textStep locs B d e)
      (fun e' he' hk => h e' (List.mem_cons.mpr (Or.inr he')) hk)]
    by_cases hk : textKey e.1 = k
    · rw [textStep_of_not_ok locs B d e (h e (List.mem_cons.mpr (Or.inl rfl)) hk)]
    · exact metaGet_textStep_ne locs B d e k hk

/-! ## Concrete fixtures for the claims

Headers shaped after the repository's 1-D FID fixture
(`FDDIMCOUNT=1`, `FDDIMORDER=(2,1,3,4)`, time domain, 2D-phase MAGNITUDE)
and its 2-D fixtures. -/

/-- A 1-D time-domain FID header (acting channel F2, `AQSIGN` 0). -/
def fidMeta : MetaDict :=
  [("FDDIMCOUNT", .num 1), ("FDDIMORDER1", .num 2), ("FDDIMORDER2", .num 1),
   ("FDDIMORDER3", .num 3), ("FDDIMORDER4", .num 4),
   ("FDF2FTFLAG", .num 0), ("FD2DPHASE", .num 0), ("FDF2AQSIGN", .num 0)]

def fidSpec : PipeSpectrum := ⟨fidMeta, [799]⟩

/-- The same spectrum with `FDF2AQSIGN = 2` (`SignAdjustment.COMPLEX`). -/
def fidSpecAlt : PipeSpectrum :=
  ⟨metaSet fidMeta "FDF2AQSIGN" (.num 2), [799]⟩

/-- The same spectrum with `FDF2AQSIGN = 16` (`NEGATE_IMAG`). -/
def fidSpecNeg : PipeSpectrum :=
  ⟨metaSet fidMeta "FDF2AQSIGN" (.num 16), [799]⟩

/-- The same spectrum already in the frequency domain (`FDF2FTFLAG = 1`). -/
def freqSpec : PipeSpectrum :=
  ⟨metaSet fidMeta "FDF2FTFLAG" (.num 1), [799]⟩

/-- A 2-D header whose F1 axis (in-memory axis 0) is REAL and whose F2 axis
(in-memory axis 1, the last) is COMPLEX. -/
def meta2d : MetaDict :=
  [("FDDIMCOUNT", .num 2), ("FDDIMORDER1", .num 2), ("FDDIMORDER2", .num 1),
   ("FDDIMORDER3", .num 3), ("FDDIMORDER4", .num 4),
   ("FDF1QUADFLAG", .num 1), ("FDF2QUADFLAG", .num 0)]

def spec2d : PipeSpectrum := ⟨meta2d, [368, 1024]⟩

/-- A frequency-domain axis: 4 points, `sw_hz = 40`,
`range_hz = (100, 60)`, `range_ppm = (10, 6)`. -/
def freqAxis : ConvAxis := ⟨.FREQ, 4, 40, (100, 60), (10, 6), 0, false⟩

/-- The same axis in the time domain. -/
def timeAxis : ConvAxis := ⟨.TIME, 4, 40, (100, 60), (10, 6), 0, false⟩

/-- A rank-3 real tensor of shape (1, 1, 2): one last-axis row `[1, 2]`. -/
def tensor3d : PTensor ℚ := ⟨[1, 1, 2], [1, 2]⟩

/-- Stand-ins for the transcendental torch functions: the settled
statements do not depend on their values. -/
def expStub : ℚ → ℚ := fun x => 1 + x

def sinStub : ℚ → ℚ := fun x => x

def powStub : ℚ → ℚ → ℚ := fun a _ => a

def piStub : ℚ := 355 / 113

/-! ## The claims -/

/-- Claim C1, counterexample: the claim says a rounded `FDDMXFLAG` of `-1`
(and likewise an absent field, which defaults to `-1.0`) means *True*
(correction needed); the code returns **False** for `-1`
(`False if dmxflag == -1.0 or dmxflag == 1.0 else True`). -/
theorem claim_C1_counterexample :
    PipeSpectrum.correct_digital_filter
      ⟨[("FDDMXFLAG", PVal.num (-1))], [799]⟩ = false := by
  with_unfolding_all decide

/-- Claim C1, amended: `correct_digital_filter` is the rounded `FDDMXFLAG`
mapped as: `-1` **or absent ⇒ False**, `1` ⇒ False (already corrected), and
any other rounded value ⇒ True (auto, correction needed). -/
theorem claim_C1 (S : PipeSpectrum) :
    (metaGet S.meta "FDDMXFLAG" = none →
      S.correct_digital_filter = false)
  ∧ (∀ q : ℚ, metaGet S.meta "FDDMXFLAG" = some (.num q) →
      ((pyRound q = -1 → S.correct_digital_filter = false)
     ∧ (pyRound q = 1 → S.correct_digital_filter = false)
     ∧ (pyRound q ≠ -1 → pyRound q ≠ 1 →
          S.correct_digital_filter = true))) := by
  unfold PipeSpectrum.correct_digital_filter metaGetQD
  constructor
  · intro h
    rw [h]
    with_unfolding_all decide
  · intro q h
    rw [h]
    refine ⟨fun h1 => ?_, fun h1 => ?_, fun h1 h2 => ?_⟩
    · simp [h1]
    · simp [h1]
    · simp [h1, h2]

/-- Claim C1, witness: the amended mapping at an absent field, at code `1`,
and at code `0` (auto). -/
theorem claim_C1_witness :
    PipeSpectrum.correct_digital_filter ⟨[], []⟩ = false
  ∧ PipeSpectrum.correct_digital_filter
      ⟨[("FDDMXFLAG", PVal.num 1)], []⟩ = false
  ∧ PipeSpectrum.correct_digital_filter
      ⟨[("FDDMXFLAG", PVal.num 0)], []⟩ = true :=
  ⟨(claim_C1 ⟨[], []⟩).1 rfl,
   ((claim_C1 ⟨[("FDDMXFLAG", PVal.num 1)], []⟩).2 1 rfl).2.1 (by with_unfolding_all decide),
   ((claim_C1 ⟨[("FDDMXFLAG", PVal.num 0)], []⟩).2 0 rfl).2.2
     (by with_unfolding_all decide) (by with_unfolding_all decide)⟩

/-- Claim C2: `ft(auto=True)` resolves the flags exactly as the claim says
(FREQ ⇒ all false; TIME ⇒ inv=True, real iff `plane2dphase` is MAGNITUDE
or TPPI, alt iff `sign_adjustment` is REAL/COMPLEX, neg iff it is one of
the NEGATE_IMAG codes) and resets `AQSIGN` to the NONE sentinel — but the
claim's final part fails: after the transform the code writes
`FTFLAG = TIME if inv else FREQ`, i.e. the **pre**-transform domain in auto
mode (`0.0` after forward-transforming a TIME axis, where the claim's
post-transform domain would be FREQ `1.0`; `1.0` after inverse-transforming
a FREQ axis, where the claim would give TIME `0.0`). -/
theorem claim_C2 :
    ((fidSpec.ft true false false false false).map
        (fun p => (p.1, metaGet p.2 "FDF2FTFLAG", metaGet p.2 "FDF2AQSIGN")))
      = .ok (⟨true, true, false, false⟩, some (.num 0), some .null)
  ∧ ((fidSpecAlt.ft true false false false false).map
        (fun p => (p.1, metaGet p.2 "FDF2FTFLAG")))
      = .ok (⟨true, true, true, false⟩, some (.num 0))
  ∧ ((fidSpecNeg.ft true false false false false).map
        (fun p => (p.1, metaGet p.2 "FDF2FTFLAG")))
      = .ok (⟨true, true, false, true⟩, some (.num 0))
  ∧ ((freqSpec.ft true false false false false).map
        (fun p => (p.1, metaGet p.2 "FDF2FTFLAG")))
      = .ok (⟨false, false, false, false⟩, some (.num 1)) := by
  with_unfolding_all decide

/-- Claim C3: the block-interleave inverse law fails on any tensor of rank
three or more, because `combine_block_from_complex` uses `torch.hstack`,
which concatenates along axis 1 rather than the last axis: on the shape
(1, 1, 2) tensor the round trip returns shape (1, 2, 1).  The
single-interleave inverse law does hold exactly for every well-formed real
tensor with an even last-axis length. -/
theorem claim_C3 :
    combine_block_from_complex (split_block_to_complex tensor3d)
      = ⟨[1, 2, 1], [1, 2]⟩
  ∧ combine_block_from_complex (split_block_to_complex tensor3d) ≠ tensor3d
  ∧ (∀ t : PTensor ℚ, t.data.length = t.shape.prod → t.shape ≠ [] →
      lastDim t.shape % 2 = 0 →
      combine_single_from_complex (split_single_to_complex t) = t) :=
  ⟨by with_unfolding_all decide, by with_unfolding_all decide, single_roundtrip⟩

/-- Claim C3, witness: the single-interleave inverse law at a concrete
2 × 4 tensor. -/
theorem claim_C3_witness :
    combine_single_from_complex
        (split_single_to_complex ⟨[2, 4], [1, 2, 3, 4, 5, 6, 7, 8]⟩)
      = ⟨[2, 4], [1, 2, 3, 4, 5, 6, 7, 8]⟩ :=
  claim_C3.2.2 ⟨[2, 4], [1, 2, 3, 4, 5, 6, 7, 8]⟩
    (by with_unfolding_all decide) (by with_unfolding_all decide) (by with_unfolding_all decide)

/-- Claim C4: `apodization_exp` does not leave points outside
`[start, start+size)` unscaled.  The source re-binds
`size = npts if size is None else npts` — both branches give `npts` — so a
call with `start = 1` attempts the slice assignment
`k[1:1+npts] = (npts values)` into a slice of `npts - 1` positions and
raises a shape-mismatch `RuntimeError` (first and third conjuncts, also
for the sine variant), and a call with `start = 0, size = 2` on four
points scales **all four** points by the window (second conjunct: points 2
and 3, outside the window, are multiplied by `exp(-|lb·π·t|) ≠ 1`, not by
1 — the `ones` initialisation of `k` is consumed by `exp(-k)`). -/
theorem claim_C4 :
    apodization_exp expStub piStub 10 [1, 1, 1, 1] 1 1 (some 2)
      = .error .runtimeError
  ∧ apodization_exp expStub piStub 10 [1, 1, 1, 1] 1 0 (some 2)
      = .ok [1, 42/113, -29/113, -100/113]
  ∧ apodization_sine sinStub powStub piStub 10 [1, 1, 1, 1]
      (1/2) 1 1 1 (some 2) = .error .runtimeError := by
  with_unfolding_all decide

/-- Claim C5: `convert` never raises an InvalidInput-kind error on any
incompatible pair.  On a TIME-domain axis it evaluates `UnitType.FREQ`, a
member that does not exist in `spectra/constants.py`, so **every**
conversion on a TIME axis (the claimed-invalid HZ→POINTS as well as the
claimed-compatible SEC→POINTS) raises `AttributeError` instead; and on a
FREQ-domain axis the SEC checks call `msg.format` with positional
arguments against the named `{unit}`/`{domain_type}` placeholders, so
they raise `KeyError` before the intended `ValueError` is constructed
(for SEC as `unit_from` and as `unit_to` alike). -/
theorem claim_C5 :
    convert timeAxis 2 .HZ .POINTS = .error .attributeError
  ∧ convert timeAxis (1/10) .SEC .POINTS = .error .attributeError
  ∧ convert freqAxis 1 .SEC .POINTS = .error .keyError
  ∧ convert freqAxis 1 .POINTS .SEC = .error .keyError := by
  with_unfolding_all decide

/-- Claim C6: the POINTS↔HZ and POINTS↔PPM round trips fail.  Point 0 is
re-interpreted as `npts + 0 = npts` (backward counting) and the
`0 < point < npts` assertion rejects it; point 1 converts to
`1 · df_hz = 10` Hz, but the reverse direction computes
`(10 − range_hz[0]) / df_hz = −9`, which the assertion also rejects —
the forward direction omits the `range_hz[0]` offset that the reverse
direction subtracts, so no nonzero-offset axis can round-trip (the same
for PPM and for point `npts − 1`). -/
theorem claim_C6 :
    convert freqAxis 0 .POINTS .HZ = .error .assertionError
  ∧ convert freqAxis 1 .POINTS .HZ = .ok 10
  ∧ convert freqAxis 10 .HZ .POINTS = .error .assertionError
  ∧ convert freqAxis 3 .POINTS .HZ = .ok 30
  ∧ convert freqAxis 30 .HZ .POINTS = .error .assertionError
  ∧ convert freqAxis 1 .POINTS .PPM = .ok 1
  ∧ convert freqAxis 1 .PPM .POINTS = .error .assertionError := by
  with_unfolding_all decide

/-- Claim C7: `zerofill` resolves its target with priority `size` >
`pad` > `double_base2` > default (`zerofillTarget`), right-pads every
last-axis row with zeros to exactly that length leaving the prior values
in place, and raises the InvalidInput-kind error whenever the resolved
target is not strictly greater than the current length.  The last
conjunct is the zero-fill growth law: `pad = k` grows the axis by exactly
`k`. -/
theorem claim_C7 (rows : List (List ℚ)) (npts : ℕ) (double : ℤ)
    (double_base2 size pad : Option ℤ)
    (h1 : rows ≠ []) (h2 : ∀ r ∈ rows, r.length = npts) :
    ((npts : ℚ) < zerofillTarget npts double double_base2 size pad →
      ∀ k : ℕ,
        (k : ℚ) = zerofillTarget npts double double_base2 size pad - npts →
        zerofill rows double double_base2 size pad
          = .ok (rows.map (fun r => r ++ List.replicate k 0)))
  ∧ (zerofillTarget npts double double_base2 size pad ≤ (npts : ℚ) →
      zerofill rows double double_base2 size pad
        = .error .assertionError) := by
  have hnpts : (rows.headD []).length = npts := by
    match rows, h1 with
    | r :: rest, _ => exact h2 r (List.mem_cons.mpr (Or.inl rfl))
  constructor
  · intro hlt k hk
    have hkpos : 0 < k := by
      rcases Nat.eq_zero_or_pos k with h0 | h0
      · subst h0
        simp only [Nat.cast_zero] at hk
        linarith
      · exact h0
    simp only [zerofill, hnpts]
    rw [← hk]
    have hfloor : pyInt ((k : ℚ)) = (k : ℤ) := by
      unfold pyInt
      rw [if_pos (by positivity)]
      exact_mod_cast Int.floor_natCast k
    rw [hfloor]
    rw [if_pos (by exact_mod_cast hkpos)]
    simp
  · intro hle
    simp only [zerofill, hnpts]
    have hnp : zerofillTarget npts double double_base2 size pad
        - (npts : ℚ) ≤ 0 := by linarith
    have : pyInt (zerofillTarget npts double double_base2 size pad
        - (npts : ℚ)) ≤ 0 := by
      unfold pyInt
      split
      · exact Int.floor_nonpos hnp
      · exact Int.ceil_le.mpr (by exact_mod_cast hnp)
    rw [if_neg (by omega)]

/-- Claim C7, witness: `pad = 2` on one row of one point pads it to three
points; `size = 1` equal to the current length raises the error. -/
theorem claim_C7_witness :
    zerofill [[5]] 1 none none (some 2)
      = .ok ([[(5 : ℚ)]].map (fun r => r ++ List.replicate 2 0))
  ∧ zerofill [[5]] 1 none (some 1) none = .error .assertionError :=
  ⟨(claim_C7 [[5]] 1 1 none none (some 2) (by with_unfolding_all decide)
      (by with_unfolding_all decide)).1 (by norm_num [zerofillTarget]) 2
      (by norm_num [zerofillTarget]),
   (claim_C7 [[5]] 1 1 none (some 1) none (by with_unfolding_all decide)
      (by with_unfolding_all decide)).2 (by norm_num [zerofillTarget])⟩

/-- Claim C8: with an explicitly supplied `data_type`, `data_layout`
ignores the supplied value: the condition
`data_type = self.data_type[dim] if data_type is not None else data_type`
replaces any supplied value with the axis's actual type.  On the 2-D
fixture (axis 0 REAL, axis 1 COMPLEX): asking for COMPLEX at axis 0 gives
CONTIGUOUS (the claim requires SINGLE_INTERLEAVE) and asking for REAL at
the last axis gives BLOCK_INTERLEAVE (the claim requires CONTIGUOUS);
only when the supplied value coincides with the actual type (last
conjunct) does the result match the claim. -/
theorem claim_C8 :
    spec2d.data_layout 0 (some DataType.COMPLEX)
      = .ok DataLayout.CONTIGUOUS
  ∧ spec2d.data_layout 1 (some DataType.REAL)
      = .ok DataLayout.BLOCK_INTERLEAVE
  ∧ spec2d.data_layout 1 (some DataType.COMPLEX)
      = .ok DataLayout.BLOCK_INTERLEAVE := by
  with_unfolding_all decide

/-- Claim C9: a decode/unpack failure on an individual text field never
fails the parse — the whole run behaves exactly as if the failing fields
had been omitted from `text_fields` (first part), and at the failing
field's key the returned container keeps whatever the earlier float pass
produced there — present or absent (second part); parsing of all other
fields is unaffected. -/
theorem claim_C9 :
    (∀ (locs text_fields : List (String × ℕ)) (B : HdrBuf),
      load_nmrpipe_meta locs text_fields B
        = load_nmrpipe_meta locs (text_fields.filter (textOk locs B)) B)
  ∧ (∀ (locs text_fields : List (String × ℕ)) (B : HdrBuf) (k : String),
      (∀ e ∈ text_fields, textKey e.1 = k → textOk locs B e = false) →
      metaGet (load_nmrpipe_meta locs text_fields B) k
        = metaGet (floatPass locs B) k) := by
  constructor
  · intro locs tf B
    exact foldl_textStep_filter locs B tf (floatPass locs B)
  · intro locs tf B k h
    exact metaGet_foldl_textStep locs B k tf (floatPass locs B) h

/-- Claim C9, witness: a buffer whose title field fails to decode still
parses; the failing field's key holds the float pass's answer (here:
absent, since offset 3 is beyond the two parsed floats). -/
theorem claim_C9_witness :
    metaGet (load_nmrpipe_meta [("FDMAGIC", 0), ("FDTITLE", 3)]
        [("TITLE", 8)] ⟨[5, 7], fun _ _ => none⟩) "FDTITLE"
      = metaGet (floatPass [("FDMAGIC", 0), ("FDTITLE", 3)]
        ⟨[5, 7], fun _ _ => none⟩) "FDTITLE" :=
  claim_C9.2 [("FDMAGIC", 0), ("FDTITLE", 3)] [("TITLE", 8)]
    ⟨[5, 7], fun _ _ => none⟩ "FDTITLE" (by with_unfolding_all decide)

/-- Claim C10: `NMRSpectrum.transpose` is symmetric in its two dimension
arguments: the axes are sorted into (min, max) order before every pack,
swap and unpack step, so the resulting data tensor — conversions
included — is identical under argument exchange. -/
theorem claim_C10 (layoutFn : ℕ → DataType → DataLayout)
    (dataType : List DataType) (ndims : ℕ) (d : TData) (dim0 dim1 : ℕ)
    (upd : Bool) :
    nmr_transpose layoutFn dataType ndims d dim0 dim1 upd
      = nmr_transpose layoutFn dataType ndims d dim1 dim0 upd := by
  unfold nmr_transpose
  rw [min_comm dim1 dim0, max_comm dim1 dim0]
